import Mathlib

/-!
Shallow embedding of the process-lifecycle and single-instance coordination
subsystem of `winecharm_49_search_esc_good.py`.

The OS and filesystem are modelled as an oracle (`World`) of pure functions;
the in-memory registry `self.running_processes` is an association list keyed
by the script stem; GTK/UI interactions, signals sent to processes, and
deferred `GLib.idle_add` callbacks are recorded as `Event`s.  A Python
function that can raise returns `Except PyErr _`; mutations performed before
the raise are kept in the returned registry, matching Python's semantics of
partial mutation before an exception escapes.
-/

namespace WineCharm

/-- `leadsList needle hay` is true when `needle` occurs at the start of `hay`. -/
def leadsList : List Char → List Char → Bool
  | [], _ => true
  | _ :: _, [] => false
  | n :: ns, h :: hs => n == h && leadsList ns hs

/-- `hasSub needle hay`: `needle` occurs contiguously somewhere inside `hay`. -/
def hasSub (needle : List Char) : List Char → Bool
  | [] => needle.isEmpty
  | c :: hs => leadsList needle (c :: hs) || hasSub needle hs

/-- Case-insensitive containment check, modelling Python `needle.lower() in hay.lower()`. -/
def strHas (hay needle : String) : Bool :=
  hasSub (needle.data.map Char.toLower) (hay.data.map Char.toLower)

/-- Python string slicing `s[:n]` (by code points). -/
def strTake (s : String) (n : Nat) : String :=
  String.mk (s.data.take n)

/-- Split a character list at every occurrence of a single separator
character, keeping empty fields, as Python `s.split(sep)` does. -/
def splitOnChar (sep : Char) : List Char → List (List Char)
  | [] => [[]]
  | c :: rest =>
    if c == sep then [] :: splitOnChar sep rest
    else
      match splitOnChar sep rest with
      | [] => [[c]]
      | g :: gs => (c :: g) :: gs

/-- Split at every occurrence of the literal two-character separator `||`,
modelling Python `message.split("||")` (leftmost-first, non-overlapping). -/
def splitBars : List Char → List (List Char)
  | [] => [[]]
  | '|' :: '|' :: rest => [] :: splitBars rest
  | c :: rest =>
    match splitBars rest with
    | [] => [[c]]
    | g :: gs => (c :: g) :: gs

/-- Join character-list fields with a separator character (Python `sep.join`). -/
def joinWith (sep : Char) : List (List Char) → List Char
  | [] => []
  | [g] => g
  | g :: gs => g ++ sep :: joinWith sep gs

/-- The final path component, as in Python `Path(p).name`. -/
def lastComponent (p : String) : String :=
  String.mk ((splitOnChar '/' p.data).getLastD [])

/-- The final path component without its last suffix, as in Python
`Path(p).stem` (a leading dot alone does not start a suffix). -/
def stemOf (p : String) : String :=
  let n := (splitOnChar '/' p.data).getLastD []
  match splitOnChar '.' n with
  | [] => String.mk n
  | [_] => String.mk n
  | g :: gs =>
    if g.isEmpty && gs.length == 1 then String.mk n
    else String.mk (joinWith '.' ((g :: gs).dropLast))

/-- Python `Path(base) / sub`: an empty component is ignored, an absolute
component replaces the base. -/
def joinPath (base sub : String) : String :=
  if sub.isEmpty then base
  else if leadsList ['/'] sub.data then sub
  else base ++ "/" ++ sub

/-- `appname = "WineCharm"` from the module header. -/
def appname : String := "WineCharm"

/-- A `.charm` script path; its stem is the registry key (descriptor identity). -/
abbrev Script := String

/-- `script.stem` in the source. -/
def Script.stem (s : Script) : String := stemOf s

/-- The fields `extract_yaml_info` reads from a descriptor file:
`exe_file`, `wineprefix`, `progname`, `args`. -/
structure YamlInfo where
  exeFile : String
  winePrefixDir : String
  progname : String
  args : String
deriving Repr, DecidableEq

/-- One entry of `self.running_processes`: the spawned-child handle (if this
instance spawned it), its pid, the process-group id captured at spawn time,
and the script path.  The GTK button/icon fields of the source dictionary are
presentation-layer references outside this embedding's scope. -/
structure RunRecord where
  proc : Option Nat
  pid : Option Nat
  pgid : Option Nat
  script : Script
deriving Repr, DecidableEq

/-- The registry `self.running_processes`: insertion-ordered mapping from
script stem to run record. -/
abbrev Reg := List (String × RunRecord)

/-- Python dict lookup `d.get(k)`. -/
def regLookup (reg : Reg) (k : String) : Option RunRecord :=
  match reg with
  | [] => none
  | (a, v) :: rest => bif a == k then some v else regLookup rest k

/-- Python dict assignment `d[k] = v`: replace in place if present, else append. -/
def regInsert (reg : Reg) (k : String) (v : RunRecord) : Reg :=
  match (regLookup reg k).isSome with
  | true => reg.map (fun p => bif p.1 == k then (k, v) else p)
  | false => reg ++ [(k, v)]

/-- Python `d.pop(k, None)`'s effect on the dictionary. -/
def regErase (reg : Reg) (k : String) : Reg :=
  reg.filter (fun p => !(p.1 == k))

/-- Number of records stored under one key. -/
def countKey (reg : Reg) (k : String) : Nat :=
  reg.countP (fun p => p.1 == k)

/-- The registry's keys are pairwise distinct — the structural form of the
at-most-one-record-per-identity invariant (decidable, so witnesses can
evaluate it). -/
def keysNodup (reg : Reg) : Prop := (reg.map Prod.fst).Nodup

instance (reg : Reg) : Decidable (keysNodup reg) :=
  List.nodupDecidable (reg.map Prod.fst)

/-- Python exceptions that can escape the modelled functions. -/
inductive PyErr where
  | valueError
  | fileNotFound
  | osError
  | permissionError
deriving Repr, DecidableEq

/-- Result of `proc.poll()`: `running` models `None`, `exited` a return code. -/
inductive PollResult where
  | running
  | exited
deriving Repr, DecidableEq

/-- Outcome of sending a signal (`os.kill` / `os.killpg`). -/
inductive SigResult where
  | ok
  | processLookup
  | permissionError
deriving Repr, DecidableEq

/-- A well-formed `pgrep -a` output line: leading pid column plus the full
line text used for substring matching. -/
structure PgrepLine where
  pid : Nat
  text : String
deriving Repr, DecidableEq

/-- Outcome of `subprocess.check_output(["pgrep", ...])`: captured output
lines, a `CalledProcessError` (nonzero exit, i.e. no match), or an OS-level
error launching the command (`FileNotFoundError` / `PermissionError`). -/
inductive PgrepResult where
  | output (lines : List PgrepLine)
  | calledProcessError
  | osError
deriving Repr, DecidableEq

/-- Outcome of `subprocess.Popen`. -/
inductive SpawnResult where
  | ok (pid : Nat)
  | failed
deriving Repr, DecidableEq

/-- Observable side effects. -/
inductive Event where
  | spawned (pid : Nat)
  | sigkillPid (pid : Nat)
  | sigkillPgrp (pgid : Nat)
  | signal0Pgrp (pgid : Nat)
  | idleProcessEnded (stem : String)
  | idleProcessCli (path : String)
  | showExeNotFoundDialog (exeName exeFile : String)
  | uiReset
  | bindSocket
  | sendMessage (msg : String)
  | presentUI
  | printed (msg : String)
deriving Repr, DecidableEq

/-- The OS / filesystem oracle. -/
structure World where
  poll : Nat → PollResult
  killpg0 : Nat → SigResult
  kill : Nat → SigResult
  pgrep : List String → PgrepResult
  fileExists : String → Bool
  dirExists : String → Bool
  scriptFileExists : Script → Bool
  yamlOf : Script → YamlInfo
  spawn : Script → SpawnResult
  getpgid : Nat → Option Nat
  scriptsOnDisk : List Script
  findButton : String → Bool
  glob : String → String → List String
  getcwd : String
  socketExists : Bool
  connectOk : Bool

/-- Result triple of a stateful, fallible operation: the registry after the
operation (including mutations made before a raise), the emitted events, and
the normal result or escaped exception. -/
abbrev Res (α : Type) := Reg × List Event × Except PyErr α

/-- Prepend already-emitted events to a result triple. -/
def withEvents (es : List Event) : Res α → Res α
  | (reg, es2, r) => (reg, es ++ es2, r)

/-- `extract_yaml_info`: raises `FileNotFoundError` when the script file is
gone, otherwise returns the descriptor fields (YAML parsing and path
resolution are folded into the oracle's `yamlOf`). -/
def extract_yaml_info (w : World) (s : Script) : Except PyErr YamlInfo :=
  if w.scriptFileExists s then .ok (w.yamlOf s) else .error .fileNotFound

/-- `launch_script`: reads the descriptor, shows the exe-not-found dialog and
returns (registry untouched, nothing spawned) when the recorded executable
path does not exist, else spawns in a new process group, captures pid and
pgid, and registers the run record; any exception from the spawn block is
caught and printed. -/
def launch_script (w : World) (s : Script) (reg : Reg) : Res Unit :=
  match extract_yaml_info w s with
  | .error e => (reg, [], .error e)
  | .ok y =>
    let exeName := lastComponent y.exeFile
    if w.fileExists y.exeFile then
      match w.spawn s with
      | .ok pid =>
        match w.getpgid pid with
        | some pgid =>
          (regInsert reg (Script.stem s)
            { proc := some pid, pid := some pid, pgid := some pgid, script := s },
           [Event.spawned pid], .ok ())
        | none =>
          (reg, [Event.spawned pid, Event.printed "Error launching script"], .ok ())
      | .failed => (reg, [Event.printed "Error launching script"], .ok ())
    else
      (reg, [Event.showExeNotFoundDialog exeName y.exeFile], .ok ())

/-- A record created by `update_related_scripts_buttons` for an
externally-probed process: no handle, no pid, no pgid. -/
def externalRecord (s : Script) : RunRecord :=
  { proc := none, pid := none, pgid := none, script := s }

/-- `update_related_scripts_buttons wineprefix`: for every script on disk in
the same prefix, re-probe with `pgrep -ai` on the 15-character executable-name
stem; nonempty output plus a located button re-registers an external record;
`CalledProcessError` is caught per script, an OS-level query error or a
missing script file raises. -/
def update_related_scripts_buttons (w : World) (wpfx : String) :
    List Script → Reg → Res Unit
  | [], reg => (reg, [], .ok ())
  | s :: rest, reg =>
    match extract_yaml_info w s with
    | .error e => (reg, [], .error e)
    | .ok y =>
      if y.winePrefixDir == wpfx then
        match w.pgrep ["-ai", strTake (stemOf y.exeFile) 15] with
        | .output lines =>
          let reg2 :=
            if !lines.isEmpty && w.findButton (Script.stem s) then
              regInsert reg (Script.stem s) (externalRecord s)
            else reg
          update_related_scripts_buttons w wpfx rest reg2
        | .calledProcessError => update_related_scripts_buttons w wpfx rest reg
        | .osError => (reg, [], .error .osError)
      else update_related_scripts_buttons w wpfx rest reg

/-- The per-pid loop of `terminate_script`: skip WineCharm's own pids, send
SIGKILL to each remaining pid individually, swallow `ProcessLookupError`,
and after each successful kill reset the buttons and refresh related
scripts; `PermissionError` from `os.kill` is not caught and raises. -/
def terminateKillLoop (w : World) (wpfx : String) (wcPids : List Nat) :
    List Nat → Reg → Res Unit
  | [], reg => (reg, [], .ok ())
  | pid :: rest, reg =>
    if wcPids.contains pid then terminateKillLoop w wpfx wcPids rest reg
    else
      match w.kill pid with
      | .processLookup =>
        withEvents [Event.sigkillPid pid] (terminateKillLoop w wpfx wcPids rest reg)
      | .permissionError => (reg, [Event.sigkillPid pid], .error .permissionError)
      | .ok =>
        match update_related_scripts_buttons w wpfx w.scriptsOnDisk reg with
        | (reg2, es, .ok _) =>
          withEvents (Event.sigkillPid pid :: Event.uiReset :: es)
            (terminateKillLoop w wpfx wcPids rest reg2)
        | (reg2, es, .error e) =>
          (reg2, Event.sigkillPid pid :: Event.uiReset :: es, .error e)

/-- `terminate_script`: absent record is a printed no-op; otherwise the record
is popped first, then every pid whose `pgrep -aif` line matches the first 15
characters of the executable stem — except WineCharm's own pids — is SIGKILLed
individually (no process-group signal); `CalledProcessError` from either
`pgrep` is caught, OS-level query errors raise. -/
def terminate_script (w : World) (s : Script) (reg : Reg) : Res Unit :=
  match (regLookup reg (Script.stem s)).isSome with
  | true =>
    let reg0 := regErase reg (Script.stem s)
    match extract_yaml_info w s with
    | .error e => (reg0, [], .error e)
    | .ok y =>
      let p15 := strTake (stemOf y.exeFile) 15
      match w.pgrep ["-aif", p15] with
      | .calledProcessError =>
        (reg0, [Event.printed ("No processes found for " ++ p15)], .ok ())
      | .osError => (reg0, [], .error .osError)
      | .output lines =>
        match w.pgrep ["-aif", appname] with
        | .calledProcessError =>
          (reg0, [Event.printed ("No processes found for " ++ p15)], .ok ())
        | .osError => (reg0, [], .error .osError)
        | .output wcLines =>
          terminateKillLoop w y.winePrefixDir (wcLines.map (·.pid))
            (lines.map (·.pid)) reg0
  | false =>
    (reg, [Event.printed ("No running process found for " ++ s)], .ok ())

/-- `toggle_play_stop`: a stem with a live run record is a stop request
(delegates to `terminate_script`), otherwise a launch request. -/
def toggle_play_stop (w : World) (s : Script) (reg : Reg) : Res Unit :=
  match (regLookup reg (Script.stem s)).isSome with
  | true => terminate_script w s reg
  | false => launch_script w s reg

/-- The registry after a sequence of toggle calls (each call's post-raise
registry is carried forward, as the GTK main loop survives handler errors). -/
def toggleSeq (w : World) (ss : List Script) (reg : Reg) : Reg :=
  ss.foldl (fun r s => (toggle_play_stop w s r).1) reg

/-- The `time.sleep(3)` interval of `monitor_processes`. -/
def probeInterval : Nat := 3

/-- The per-record liveness decision of one `monitor_processes` iteration:
`true` means the record is marked finished.  An owned handle whose poll
reports termination is finished; else a known pgid is signalled with the
no-op signal 0 and `ProcessLookupError` means finished; else `pgrep -aif` on
the first 15 characters of the script stem: empty output, any output line
containing the application's own name, or `CalledProcessError` mean
finished; `PermissionError` from `os.killpg` and OS-level `pgrep` errors
are not caught. -/
def checkRecord (w : World) (pi : RunRecord) : List Event × Except PyErr Bool :=
  let ownedDead :=
    match pi.proc with
    | some h => w.poll h == PollResult.exited
    | none => false
  if ownedDead then ([], .ok true)
  else
    match pi.pgid with
    | some pg =>
      match w.killpg0 pg with
      | .ok => ([Event.signal0Pgrp pg], .ok false)
      | .processLookup => ([Event.signal0Pgrp pg], .ok true)
      | .permissionError => ([Event.signal0Pgrp pg], .error .permissionError)
    | none =>
      match w.pgrep ["-aif", strTake (Script.stem pi.script) 15] with
      | .output lines =>
        ([], .ok (lines.isEmpty || lines.any (fun l => strHas l.text appname)))
      | .calledProcessError => ([], .ok true)
      | .osError => ([], .error .osError)

/-- The registry sweep of one `monitor_processes` iteration: collect the
stems of records decided finished, in registry order; a raise from any
single check aborts the whole cycle. -/
def collectFinished (w : World) : List (String × RunRecord) →
    List Event × Except PyErr (List String)
  | [] => ([], .ok [])
  | (k, pi) :: rest =>
    match checkRecord w pi with
    | (es, .error e) => (es, .error e)
    | (es, .ok fin) =>
      match collectFinished w rest with
      | (es2, .error e) => (es ++ es2, .error e)
      | (es2, .ok fs) => (es ++ es2, .ok (if fin then k :: fs else fs))

/-- One iteration of the `monitor_processes` loop body: probe every record,
then schedule `process_ended` via `GLib.idle_add` for each finished stem.
The probing thread never mutates the registry itself, which is why this
function takes the registry only as input. -/
def monitor_processes_cycle (w : World) (reg : Reg) :
    List Event × Except PyErr (List String) :=
  match collectFinished w reg with
  | (es, .error e) => (es, .error e)
  | (es, .ok fs) => (es ++ fs.map Event.idleProcessEnded, .ok fs)

/-- `process_ended`, run on the owner (UI) thread by `GLib.idle_add`: pop the
record if present, reset its button, then refresh related scripts of the same
prefix. -/
def process_ended (w : World) (stem : String) (reg : Reg) : Res Unit :=
  match regLookup reg stem with
  | none => (reg, [], .ok ())
  | some pi =>
    let reg0 := regErase reg stem
    match extract_yaml_info w pi.script with
    | .error e => (reg0, [Event.uiReset], .error e)
    | .ok y =>
      withEvents [Event.uiReset]
        (update_related_scripts_buttons w y.winePrefixDir w.scriptsOnDisk reg0)

/-- The kill loop of `on_kill_all_clicked`: SIGKILL each pid in order, with
both `ProcessLookupError` and `PermissionError` caught and printed. -/
def killAllLoop (w : World) : List Nat → List Event
  | [] => []
  | pid :: rest =>
    let es :=
      match w.kill pid with
      | .ok => [Event.sigkillPid pid,
          Event.printed ("Terminated process with PID: " ++ toString pid)]
      | .processLookup => [Event.sigkillPid pid,
          Event.printed ("Process with PID " ++ toString pid ++ " not found")]
      | .permissionError => [Event.sigkillPid pid,
          Event.printed ("Permission denied to kill PID: " ++ toString pid)]
    es ++ killAllLoop w rest

/-- `on_kill_all_clicked`: list WineCharm's own pids, list every process whose
command line matches `\.exe`, drop PID 1 and WineCharm's pids, reverse the
remainder so children die before ancestors, SIGKILL each (individual failures
caught), and finally clear the registry; `CalledProcessError` from either
listing is caught, so the clear still runs; an OS-level listing error raises
before the clear. -/
def on_kill_all_clicked (w : World) (reg : Reg) : Res Unit :=
  match w.pgrep ["-aif", appname] with
  | .osError => (reg, [], .error .osError)
  | .calledProcessError =>
    ([], [Event.printed "Error retrieving process list"], .ok ())
  | .output wcLines =>
    let wcPids := wcLines.map (·.pid)
    match w.pgrep ["-aif", "\\.exe"] with
    | .osError => (reg, [], .error .osError)
    | .calledProcessError =>
      ([], [Event.printed "No matching Wine exe processes found."], .ok ())
    | .output lines =>
      let pids :=
        ((lines.map (·.pid)).filter
          (fun p => !(p == 1) && !(wcPids.contains p))).reverse
      ([], killAllLoop w pids, .ok ())

/-- The body run by `start_socket_server`'s accept loop for one received
message: an empty read is skipped; the message is split on the literal
`"||"` — any field count other than two raises `ValueError` from the
unpacking; otherwise the requested path is resolved against the sender's
working directory; a missing directory is dropped with a diagnostic; then
`search_path.glob(pattern)` is called — CPython's `Path.glob` raises
`ValueError` ("Unacceptable pattern") when the pattern is the empty string,
which happens when the requested path is empty or ends in `/`; otherwise an
empty glob result is dropped with a diagnostic, and every resolved path that
exists is handed to `process_cli_file` via `GLib.idle_add`. -/
def handle_message (w : World) (msg : String) : List Event × Except PyErr Unit :=
  if msg.isEmpty then ([], .ok ())
  else
    match splitBars msg.data with
    | [cwdCs, fpCs] =>
      let fp := String.mk fpCs
      let parts := splitOnChar '/' fpCs
      let pattern := String.mk (parts.getLastD [])
      let directory := String.mk (joinWith '/' parts.dropLast)
      let searchPath := joinPath (String.mk cwdCs) directory
      if !w.dirExists searchPath then
        ([Event.printed ("Directory does not exist: " ++ searchPath)], .ok ())
      else if pattern.isEmpty then ([], .error .valueError)
      else
        let files := w.glob searchPath pattern
        if files.isEmpty then
          ([Event.printed ("No files matched the pattern: " ++ fp)], .ok ())
        else
          (files.map (fun p =>
            if w.fileExists p then Event.idleProcessCli p
            else Event.printed ("File does not exist: " ++ p)), .ok ())
    | _ => ([], .error .valueError)

/-- The accept loop of `start_socket_server` over a finite trace of incoming
messages: a raise from one message's handling terminates the loop (and with
it the daemon thread), leaving the remaining connections unserved. -/
def serveLoop (w : World) : List String → List Event × Except PyErr Unit
  | [] => ([], .ok ())
  | m :: rest =>
    match handle_message w m with
    | (es, .error e) => (es, .error e)
    | (es, .ok _) =>
      match serveLoop w rest with
      | (es2, r) => (es ++ es2, r)

/-- `main`: with a file argument and an existing, connectable rendezvous
socket, act purely as a client — send `cwd||file` and return before any bind
or UI; otherwise fall through to binding the socket and running the app. -/
def mainEntry (w : World) (fileArg : Option String) : List Event × Except PyErr Unit :=
  match fileArg with
  | some f =>
    if w.socketExists then
      if w.connectOk then
        ([Event.sendMessage (w.getcwd ++ "||" ++ f)], .ok ())
      else
        ([Event.printed "No existing instance found, starting a new one.",
          Event.bindSocket, Event.presentUI], .ok ())
    else
      ([Event.printed "No existing instance found, starting a new one.",
        Event.bindSocket, Event.presentUI], .ok ())
  | none => ([Event.bindSocket, Event.presentUI], .ok ())

/-- `stop_script`: kills the whole process group of the tracked pid with
SIGKILL and swallows `ProcessLookupError`.  This helper has no caller
anywhere in the module (the toggle path goes through `terminate_script`),
so it is modelled for reference but takes part in no control flow. -/
def stop_script (w : World) (pgid : Nat) : List Event × Except PyErr Unit :=
  match w.kill pgid with
  | .ok => ([Event.sigkillPgrp pgid, Event.uiReset], .ok ())
  | .processLookup =>
    ([Event.sigkillPgrp pgid,
      Event.printed "Error terminating wine process"], .ok ())
  | .permissionError => ([Event.sigkillPgrp pgid], .error .permissionError)

/-- The pids that were sent SIGKILL individually, in order. -/
def killPids (es : List Event) : List Nat :=
  es.filterMap (fun e => match e with | .sigkillPid p => some p | _ => none)

/-! ## Concrete instances used by witnesses and counterexamples -/

/-- A descriptor script whose stem (registry key) is `GameApp`. -/
def s1 : Script := "/pfx/GameApp.charm"

/-- Its descriptor fields. -/
def y1 : YamlInfo :=
  { exeFile := "/pfx/GameApp.exe", winePrefixDir := "/pfx", progname := "GameApp",
    args := "" }

/-- A benign baseline world: everything alive and well-behaved, no scripts on
disk, `pgrep` finding nothing (nonzero exit). -/
def w0 : World :=
  { poll := fun _ => .running
    killpg0 := fun _ => .ok
    kill := fun _ => .ok
    pgrep := fun _ => .calledProcessError
    fileExists := fun _ => true
    dirExists := fun _ => true
    scriptFileExists := fun _ => true
    yamlOf := fun _ => y1
    spawn := fun _ => .ok 100
    getpgid := fun _ => some 100
    scriptsOnDisk := []
    findButton := fun _ => true
    glob := fun _ _ => []
    getcwd := "/home/u"
    socketExists := true
    connectOk := true }

/-- A locally spawned run record for `s1` in process group 42. -/
def rec1 : RunRecord :=
  { proc := some 100, pid := some 100, pgid := some 42, script := s1 }

/-- A registry holding exactly the record for `s1`. -/
def reg1 : Reg := [("GameApp", rec1)]

/-- A registry holding an externally probed record for `s1` (no handle,
no pid, no pgid). -/
def regExt : Reg := [("GameApp", externalRecord s1)]

/-- `w0` with no file existing on disk (the recorded executable is gone). -/
def w2 : World := { w0 with fileExists := fun _ => false }

/-- `w0` with no directory existing on disk. -/
def wNoDir : World := { w0 with dirExists := fun _ => false }

/-- `w0` with the owned child handle polling as exited. -/
def wPoll : World := { w0 with poll := fun _ => .exited }

/-- `w0` with the no-op group signal reporting the group gone. -/
def wPg : World := { w0 with killpg0 := fun _ => .processLookup }

/-- `w0` with `pgrep` succeeding with empty output. -/
def wOut0 : World := { w0 with pgrep := fun _ => .output [] }

/-- `w0` with `pgrep` reporting a single stray line that mentions the
application's own name (alongside the queried prefix, as real prefix-query
output lines do). -/
def wOwn : World :=
  { w0 with pgrep := fun _ =>
      .output [⟨999, "999 python WineCharm.py /pfx/GameApp.exe"⟩] }

/-- `w0` with `pgrep` failing at the OS level (e.g. the binary missing). -/
def wOsErr : World := { w0 with pgrep := fun _ => .osError }

/-- A world for the termination scenarios: the payload-name query reports one
wine process (pid 100), the appname query reports WineCharm itself (pid 999). -/
def w5 : World :=
  { w0 with pgrep := fun args =>
      if args = ["-aif", appname] then .output [⟨999, "999 python winecharm.py"⟩]
      else .output [⟨100, "100 wine GameApp.exe"⟩] }

/-- `w5` with every kill denied by the OS. -/
def w6 : World := { w5 with kill := fun _ => .permissionError }

/-- A world for the kill-all scenario: four `.exe`-matching processes
including PID 1 and WineCharm's own pid 999. -/
def w7 : World :=
  { w0 with pgrep := fun args =>
      if args = ["-aif", appname] then .output [⟨999, "999 python winecharm.py"⟩]
      else .output [⟨1, "1 init"⟩, ⟨999, "999 python winecharm.py"⟩,
        ⟨100, "100 wine GameApp.exe"⟩, ⟨101, "101 GameApp.exe worker"⟩] }

/-- A world in which the gateway can resolve `/home/u||games/setup.exe`. -/
def w9 : World :=
  { w0 with glob := fun _ _ => ["/home/u/games/setup.exe"] }

/-- A descriptor whose script stem (`My_Game`, from the display name) differs
from its executable's stem (`setup`). -/
def sC3 : Script := "/pfx/My_Game.charm"

/-- Its descriptor fields. -/
def yC3 : YamlInfo :=
  { exeFile := "/pfx/setup.exe", winePrefixDir := "/pfx", progname := "My Game",
    args := "" }

/-- World in which the executable-name query (`setup`) reports a live payload
process but the script-stem query (`My_Game`) reports no match. -/
def wA : World :=
  { w0 with yamlOf := fun _ => yC3
            pgrep := fun args =>
              if args = ["-aif", "setup"] then
                .output [⟨100, "100 wine Z:\\pfx\\setup.exe"⟩]
              else .calledProcessError }

/-- Same executable-name query answer as `wA`, but the script-stem query now
reports a live match. -/
def wB : World :=
  { w0 with yamlOf := fun _ => yC3
            pgrep := fun args =>
              if args = ["-aif", "My_Game"] then
                .output [⟨100, "100 wine My_Game window"⟩]
              else if args = ["-aif", "setup"] then
                .output [⟨100, "100 wine Z:\\pfx\\setup.exe"⟩]
              else .calledProcessError }

/-! ## Registry invariant lemmas -/

theorem regLookup_isSome_false_notMem (reg : Reg) (k : String)
    (h : (regLookup reg k).isSome = false) : k ∉ reg.map Prod.fst := by
  induction reg with
  | nil => simp
  | cons p rest ih =>
    obtain ⟨a, v⟩ := p
    cases hk : a == k with
    | true => simp [regLookup, hk] at h
    | false =>
      simp only [regLookup, hk, Bool.false_eq_true, if_false] at h
      simp only [List.map_cons, List.mem_cons]
      rintro (rfl | hm)
      · simp at hk
      · exact ih h hm

theorem notMem_countKey_zero (reg : Reg) (k : String)
    (h : k ∉ reg.map Prod.fst) : countKey reg k = 0 := by
  induction reg with
  | nil => rfl
  | cons p rest ih =>
    obtain ⟨a, v⟩ := p
    simp only [List.map_cons, List.mem_cons, not_or] at h
    have hk : (a == k) = false := by
      simp only [beq_eq_false_iff_ne, ne_eq]
      exact fun hpk => h.1 hpk.symm
    simp only [countKey, List.countP_cons, hk, if_false]
    exact ih h.2

theorem keysNodup_countKey_le (reg : Reg) (hn : keysNodup reg) (k : String) :
    countKey reg k ≤ 1 := by
  induction reg with
  | nil => simp [countKey]
  | cons p rest ih =>
    obtain ⟨a, v⟩ := p
    simp only [keysNodup, List.map_cons, List.nodup_cons] at hn
    cases hk : a == k with
    | true =>
      have hkk : a = k := eq_of_beq hk
      have h0 : countKey rest k = 0 :=
        notMem_countKey_zero rest k (hkk ▸ hn.1)
      simp only [countKey, List.countP_cons, hk, if_true] at *
      omega
    | false =>
      simp only [countKey, List.countP_cons, hk, Bool.false_eq_true, if_false]
      simpa [countKey] using ih hn.2

theorem keys_map_replace (reg : Reg) (k : String) (v : RunRecord) :
    (reg.map (fun p => bif p.1 == k then (k, v) else p)).map Prod.fst =
      reg.map Prod.fst := by
  induction reg with
  | nil => rfl
  | cons p rest ih =>
    obtain ⟨a, b⟩ := p
    cases hk : a == k with
    | true =>
      have hkk : a = k := eq_of_beq hk
      simp only [List.map_cons, ih, List.cons.injEq, and_true]
      simp [hk, hkk]
    | false =>
      simp only [List.map_cons, ih, List.cons.injEq, and_true]
      simp [hk]

theorem keysNodup_regInsert (reg : Reg) (k : String) (v : RunRecord)
    (hn : keysNodup reg) : keysNodup (regInsert reg k v) := by
  unfold regInsert
  cases hs : (regLookup reg k).isSome with
  | true =>
    simpa only [keysNodup, keys_map_replace] using hn
  | false =>
    have hmem := regLookup_isSome_false_notMem reg k hs
    simp only [keysNodup, List.map_append, List.map_cons, List.map_nil]
    refine List.Nodup.append hn (List.nodup_singleton k) ?_
    intro a ha hb
    have : a = k := by simpa using hb
    exact hmem (this ▸ ha)

theorem keysNodup_regErase (reg : Reg) (k : String)
    (hn : keysNodup reg) : keysNodup (regErase reg k) := by
  unfold regErase keysNodup
  exact ((List.filter_sublist reg).map Prod.fst).nodup hn

theorem withEvents_eq (es : List Event) (r : Res α) :
    withEvents es r = (r.1, es ++ r.2.1, r.2.2) := by
  obtain ⟨a, b, c⟩ := r
  rfl

/-! ## Invariant preservation through the operations -/

theorem keysNodup_update_related (w : World) (wpfx : String) :
    ∀ (ss : List Script) (reg : Reg), keysNodup reg →
      keysNodup (update_related_scripts_buttons w wpfx ss reg).1 := by
  intro ss
  induction ss with
  | nil => intro reg h; simpa [update_related_scripts_buttons] using h
  | cons s rest ih =>
    intro reg h
    simp only [update_related_scripts_buttons]
    rcases hx : extract_yaml_info w s with e | y
    · exact h
    · simp only []
      cases hw : (y.winePrefixDir == wpfx) with
      | false => simp only [hw, Bool.false_eq_true, if_false]; exact ih reg h
      | true =>
        simp only [hw, if_true]
        rcases hp : w.pgrep ["-ai", strTake (stemOf y.exeFile) 15] with
          lines | _ | _
        · simp only []
          cases hb : (!lines.isEmpty && w.findButton (Script.stem s)) with
          | false => simp only [hb, Bool.false_eq_true, if_false]; exact ih reg h
          | true =>
            simp only [hb, if_true]
            exact ih _ (keysNodup_regInsert reg (Script.stem s)
              (externalRecord s) h)
        · exact ih reg h
        · exact h

theorem update_related_events (w : World) (wpfx : String) :
    ∀ (ss : List Script) (reg : Reg),
      (update_related_scripts_buttons w wpfx ss reg).2.1 = [] := by
  intro ss
  induction ss with
  | nil => intro reg; rfl
  | cons s rest ih =>
    intro reg
    simp only [update_related_scripts_buttons]
    rcases hx : extract_yaml_info w s with e | y
    · rfl
    · simp only []
      cases hw : (y.winePrefixDir == wpfx) with
      | false => simp only [hw, Bool.false_eq_true, if_false]; exact ih reg
      | true =>
        simp only [hw, if_true]
        rcases hp : w.pgrep ["-ai", strTake (stemOf y.exeFile) 15] with
          lines | _ | _
        · simp only []
          cases hb : (!lines.isEmpty && w.findButton (Script.stem s)) with
          | false => simp only [hb, Bool.false_eq_true, if_false]; exact ih reg
          | true => simp only [hb, if_true]; exact ih _
        · exact ih reg
        · rfl

theorem keysNodup_terminateKillLoop (w : World) (wpfx : String)
    (wc : List Nat) :
    ∀ (pids : List Nat) (reg : Reg), keysNodup reg →
      keysNodup (terminateKillLoop w wpfx wc pids reg).1 := by
  intro pids
  induction pids with
  | nil => intro reg h; simpa [terminateKillLoop] using h
  | cons pid rest ih =>
    intro reg h
    simp only [terminateKillLoop]
    cases hc : wc.contains pid with
    | true => simp only [hc, if_true]; exact ih reg h
    | false =>
      simp only [hc, Bool.false_eq_true, if_false]
      cases hk : w.kill pid with
      | processLookup =>
        simp only [withEvents_eq]
        exact ih reg h
      | permissionError => exact h
      | ok =>
        rcases hu : update_related_scripts_buttons w wpfx w.scriptsOnDisk reg
          with ⟨reg2, es, r⟩
        have hreg2 : keysNodup reg2 := by
          have := keysNodup_update_related w wpfx w.scriptsOnDisk reg h
          rw [hu] at this
          exact this
        cases r with
        | ok _ =>
          simp only [withEvents_eq]
          exact ih reg2 hreg2
        | error e => exact hreg2

theorem terminateKillLoop_no_spawned (w : World) (wpfx : String)
    (wc : List Nat) :
    ∀ (pids : List Nat) (reg : Reg) (q : Nat),
      Event.spawned q ∉ (terminateKillLoop w wpfx wc pids reg).2.1 := by
  intro pids
  induction pids with
  | nil => intro reg q; simp [terminateKillLoop]
  | cons pid rest ih =>
    intro reg q
    simp only [terminateKillLoop]
    cases hc : wc.contains pid with
    | true => simp only [hc, if_true]; exact ih reg q
    | false =>
      simp only [hc, Bool.false_eq_true, if_false]
      cases hk : w.kill pid with
      | processLookup =>
        simp only [withEvents_eq, List.mem_append, List.mem_singleton]
        rintro (hx | hx)
        · simp at hx
        · exact ih reg q hx
      | permissionError => simp
      | ok =>
        rcases hu : update_related_scripts_buttons w wpfx w.scriptsOnDisk reg
          with ⟨reg2, es, r⟩
        have hes : es = [] := by
          have := update_related_events w wpfx w.scriptsOnDisk reg
          rw [hu] at this
          exact this
        cases r with
        | ok _ =>
          simp only [withEvents_eq, hes, List.cons_append, List.nil_append,
            List.mem_cons]
          rintro (hx | hx | hx)
          · simp at hx
          · simp at hx
          · exact ih reg2 q hx
        | error e =>
          simp only [hes, List.mem_cons]
          rintro (hx | hx | hx)
          · simp at hx
          · simp at hx
          · simp at hx

theorem keysNodup_terminate_script (w : World) (s : Script) (reg : Reg)
    (h : keysNodup reg) : keysNodup (terminate_script w s reg).1 := by
  simp only [terminate_script]
  cases hs : (regLookup reg (Script.stem s)).isSome with
  | false => exact h
  | true =>
    have h0 : keysNodup (regErase reg (Script.stem s)) :=
      keysNodup_regErase reg (Script.stem s) h
    rcases hx : extract_yaml_info w s with e | y
    · exact h0
    · simp only []
      rcases hp : w.pgrep ["-aif", strTake (stemOf y.exeFile) 15] with
        lines | _ | _
      · rcases hq : w.pgrep ["-aif", appname] with wcLines | _ | _
        · exact keysNodup_terminateKillLoop w y.winePrefixDir
            (wcLines.map (·.pid)) (lines.map (·.pid)) _ h0
        · exact h0
        · exact h0
      · exact h0
      · exact h0

theorem terminate_script_no_spawned (w : World) (s : Script) (reg : Reg)
    (q : Nat) : Event.spawned q ∉ (terminate_script w s reg).2.1 := by
  simp only [terminate_script]
  cases hs : (regLookup reg (Script.stem s)).isSome with
  | false => simp
  | true =>
    rcases hx : extract_yaml_info w s with e | y
    · simp
    · simp only []
      rcases hp : w.pgrep ["-aif", strTake (stemOf y.exeFile) 15] with
        lines | _ | _
      · rcases hq : w.pgrep ["-aif", appname] with wcLines | _ | _
        · exact terminateKillLoop_no_spawned w y.winePrefixDir
            (wcLines.map (·.pid)) (lines.map (·.pid)) _ q
        · simp
        · simp
      · simp
      · simp

theorem keysNodup_launch_script (w : World) (s : Script) (reg : Reg)
    (h : keysNodup reg) : keysNodup (launch_script w s reg).1 := by
  simp only [launch_script]
  rcases hx : extract_yaml_info w s with e | y
  · exact h
  · simp only []
    cases he : w.fileExists y.exeFile with
    | false => exact h
    | true =>
      simp only [he, if_true]
      rcases hsp : w.spawn s with pid | _
      · dsimp only
        rcases hg : w.getpgid pid with _ | pgid
        · exact h
        · exact keysNodup_regInsert reg (Script.stem s) _ h
      · exact h

theorem keysNodup_toggle (w : World) (s : Script) (reg : Reg)
    (h : keysNodup reg) : keysNodup (toggle_play_stop w s reg).1 := by
  simp only [toggle_play_stop]
  cases hs : (regLookup reg (Script.stem s)).isSome with
  | true => exact keysNodup_terminate_script w s reg h
  | false => exact keysNodup_launch_script w s reg h

theorem keysNodup_toggleSeq (w : World) (ss : List Script) (reg : Reg)
    (h : keysNodup reg) : keysNodup (toggleSeq w ss reg) := by
  induction ss generalizing reg with
  | nil => simpa [toggleSeq] using h
  | cons s rest ih =>
    simp only [toggleSeq, List.foldl_cons]
    exact ih _ (keysNodup_toggle w s reg h)

/-! ## Lookup and event bookkeeping lemmas -/

theorem regLookup_regErase_self (reg : Reg) (k : String) :
    regLookup (regErase reg k) k = none := by
  induction reg with
  | nil => rfl
  | cons p rest ih =>
    obtain ⟨a, v⟩ := p
    cases hk : a == k with
    | true => simpa [regErase, List.filter_cons, hk] using ih
    | false =>
      simpa [regErase, List.filter_cons, hk, regLookup] using ih

theorem regLookup_map_replace (reg : Reg) (k' k : String) (v : RunRecord)
    (hne : k' ≠ k) :
    regLookup (reg.map (fun p => bif p.1 == k' then (k', v) else p)) k =
      regLookup reg k := by
  induction reg with
  | nil => rfl
  | cons p rest ih =>
    obtain ⟨a, b⟩ := p
    cases hk : a == k' with
    | true =>
      have ha : a = k' := eq_of_beq hk
      have hk2 : (k' == k) = false := by
        simp only [beq_eq_false_iff_ne, ne_eq]; exact hne
      have hak : (a == k) = false := by rw [ha]; exact hk2
      simp [regLookup, hk, hk2, hak, ih]
    | false =>
      cases hak : a == k with
      | true => simp [regLookup, hk, hak]
      | false => simp [regLookup, hk, hak, ih]

theorem regLookup_append_single (reg : Reg) (k' k : String) (v : RunRecord)
    (hne : k' ≠ k) :
    regLookup (reg ++ [(k', v)]) k = regLookup reg k := by
  induction reg with
  | nil =>
    have hk2 : (k' == k) = false := by
      simp only [beq_eq_false_iff_ne, ne_eq]; exact hne
    simp [regLookup, hk2]
  | cons p rest ih =>
    obtain ⟨a, b⟩ := p
    simp only [List.cons_append, regLookup]
    cases hak : a == k with
    | true => simp [hak]
    | false => simp only [hak, cond_false]; exact ih

theorem regLookup_regInsert_other (reg : Reg) (k' k : String)
    (v : RunRecord) (hne : k' ≠ k) :
    regLookup (regInsert reg k' v) k = regLookup reg k := by
  unfold regInsert
  cases hs : (regLookup reg k').isSome with
  | true => exact regLookup_map_replace reg k' k v hne
  | false => exact regLookup_append_single reg k' k v hne

theorem update_related_result_ok (w : World) (wpfx : String) :
    ∀ (ss : List Script) (reg : Reg),
      (∀ sc ∈ ss, w.scriptFileExists sc = true) →
      (∀ args, w.pgrep args ≠ .osError) →
      (update_related_scripts_buttons w wpfx ss reg).2.2 = .ok () := by
  intro ss
  induction ss with
  | nil => intro reg _ _; rfl
  | cons s rest ih =>
    intro reg hex hos
    have hs : w.scriptFileExists s = true := hex s (by simp)
    have hrest : ∀ sc ∈ rest, w.scriptFileExists sc = true :=
      fun sc hsc => hex sc (by simp [hsc])
    simp only [update_related_scripts_buttons, extract_yaml_info, hs, if_true]
    cases hw : ((w.yamlOf s).winePrefixDir == wpfx) with
    | false =>
      simp only [hw, Bool.false_eq_true, if_false]
      exact ih reg hrest hos
    | true =>
      simp only [hw, if_true]
      rcases hp : w.pgrep ["-ai", strTake (stemOf (w.yamlOf s).exeFile) 15] with
        lines | _ | _
      · simp only []
        cases hb : (!lines.isEmpty && w.findButton (Script.stem s)) with
        | false =>
          simp only [hb, Bool.false_eq_true, if_false]
          exact ih reg hrest hos
        | true =>
          simp only [hb, if_true]
          exact ih _ hrest hos
      · exact ih reg hrest hos
      · exact absurd hp (hos _)

theorem update_related_lookup_other (w : World) (wpfx : String) :
    ∀ (ss : List Script) (reg : Reg) (k : String),
      (∀ sc ∈ ss, Script.stem sc ≠ k) →
      regLookup (update_related_scripts_buttons w wpfx ss reg).1 k =
        regLookup reg k := by
  intro ss
  induction ss with
  | nil => intro reg k _; rfl
  | cons s rest ih =>
    intro reg k hne
    have hs : Script.stem s ≠ k := hne s (by simp)
    have hrest : ∀ sc ∈ rest, Script.stem sc ≠ k :=
      fun sc hsc => hne sc (by simp [hsc])
    simp only [update_related_scripts_buttons]
    rcases hx : extract_yaml_info w s with e | y
    · rfl
    · simp only []
      cases hw : (y.winePrefixDir == wpfx) with
      | false =>
        simp only [hw, Bool.false_eq_true, if_false]
        exact ih reg k hrest
      | true =>
        simp only [hw, if_true]
        rcases hp : w.pgrep ["-ai", strTake (stemOf y.exeFile) 15] with
          lines | _ | _
        · simp only []
          cases hb : (!lines.isEmpty && w.findButton (Script.stem s)) with
          | false =>
            simp only [hb, Bool.false_eq_true, if_false]
            exact ih reg k hrest
          | true =>
            simp only [hb, if_true]
            rw [ih _ k hrest]
            exact regLookup_regInsert_other reg (Script.stem s) k
              (externalRecord s) hs
        · exact ih reg k hrest
        · rfl

theorem terminateKillLoop_result_ok (w : World) (wpfx : String)
    (wc : List Nat)
    (hex : ∀ sc ∈ w.scriptsOnDisk, w.scriptFileExists sc = true)
    (hos : ∀ args, w.pgrep args ≠ .osError)
    (hperm : ∀ p, w.kill p ≠ .permissionError) :
    ∀ (pids : List Nat) (reg : Reg),
      (terminateKillLoop w wpfx wc pids reg).2.2 = .ok () := by
  intro pids
  induction pids with
  | nil => intro reg; rfl
  | cons pid rest ih =>
    intro reg
    simp only [terminateKillLoop]
    cases hc : wc.contains pid with
    | true => simp only [hc, if_true]; exact ih reg
    | false =>
      simp only [hc, Bool.false_eq_true, if_false]
      cases hk : w.kill pid with
      | processLookup => simp only [withEvents_eq]; exact ih reg
      | permissionError => exact absurd hk (hperm pid)
      | ok =>
        rcases hu : update_related_scripts_buttons w wpfx w.scriptsOnDisk reg
          with ⟨reg2, es, r⟩
        have hok : r = .ok () := by
          have := update_related_result_ok w wpfx w.scriptsOnDisk reg hex hos
          rw [hu] at this
          exact this
        subst hok
        simp only [withEvents_eq]
        exact ih reg2

theorem terminateKillLoop_killPids (w : World) (wpfx : String)
    (wc : List Nat)
    (hex : ∀ sc ∈ w.scriptsOnDisk, w.scriptFileExists sc = true)
    (hos : ∀ args, w.pgrep args ≠ .osError)
    (hperm : ∀ p, w.kill p ≠ .permissionError) :
    ∀ (pids : List Nat) (reg : Reg),
      killPids (terminateKillLoop w wpfx wc pids reg).2.1 =
        pids.filter (fun p => !(wc.contains p)) := by
  intro pids
  induction pids with
  | nil => intro reg; rfl
  | cons pid rest ih =>
    intro reg
    simp only [terminateKillLoop, List.filter_cons]
    cases hc : wc.contains pid with
    | true => simp only [hc, if_true, Bool.not_true, Bool.false_eq_true,
        if_false]; exact ih reg
    | false =>
      simp only [hc, Bool.false_eq_true, if_false, Bool.not_false, if_true]
      cases hk : w.kill pid with
      | processLookup =>
        simp only [withEvents_eq, killPids, List.filterMap_append]
        simp only [killPids] at ih
        simp [ih reg]
      | permissionError => exact absurd hk (hperm pid)
      | ok =>
        rcases hu : update_related_scripts_buttons w wpfx w.scriptsOnDisk reg
          with ⟨reg2, es, r⟩
        have hes : es = [] := by
          have := update_related_events w wpfx w.scriptsOnDisk reg
          rw [hu] at this
          exact this
        have hok : r = .ok () := by
          have := update_related_result_ok w wpfx w.scriptsOnDisk reg hex hos
          rw [hu] at this
          exact this
        subst hok hes
        simp only [withEvents_eq, killPids, List.filterMap_append]
        simp only [killPids] at ih
        simp [ih reg2]

theorem terminateKillLoop_lookup_other (w : World) (wpfx : String)
    (wc : List Nat) (k : String)
    (hne : ∀ sc ∈ w.scriptsOnDisk, Script.stem sc ≠ k) :
    ∀ (pids : List Nat) (reg : Reg),
      regLookup (terminateKillLoop w wpfx wc pids reg).1 k =
        regLookup reg k := by
  intro pids
  induction pids with
  | nil => intro reg; rfl
  | cons pid rest ih =>
    intro reg
    simp only [terminateKillLoop]
    cases hc : wc.contains pid with
    | true => simp only [hc, if_true]; exact ih reg
    | false =>
      simp only [hc, Bool.false_eq_true, if_false]
      cases hk : w.kill pid with
      | processLookup => simp only [withEvents_eq]; exact ih reg
      | permissionError => rfl
      | ok =>
        rcases hu : update_related_scripts_buttons w wpfx w.scriptsOnDisk reg
          with ⟨reg2, es, r⟩
        have hlk : regLookup reg2 k = regLookup reg k := by
          have := update_related_lookup_other w wpfx w.scriptsOnDisk reg k hne
          rw [hu] at this
          exact this
        cases r with
        | ok _ =>
          simp only [withEvents_eq]
          rw [ih reg2, hlk]
        | error e => exact hlk

theorem terminateKillLoop_no_pgrp (w : World) (wpfx : String)
    (wc : List Nat) :
    ∀ (pids : List Nat) (reg : Reg) (g : Nat),
      Event.sigkillPgrp g ∉ (terminateKillLoop w wpfx wc pids reg).2.1 := by
  intro pids
  induction pids with
  | nil => intro reg g; simp [terminateKillLoop]
  | cons pid rest ih =>
    intro reg g
    simp only [terminateKillLoop]
    cases hc : wc.contains pid with
    | true => simp only [hc, if_true]; exact ih reg g
    | false =>
      simp only [hc, Bool.false_eq_true, if_false]
      cases hk : w.kill pid with
      | processLookup =>
        simp only [withEvents_eq, List.mem_append, List.mem_singleton]
        rintro (hx | hx)
        · simp at hx
        · exact ih reg g hx
      | permissionError => simp
      | ok =>
        rcases hu : update_related_scripts_buttons w wpfx w.scriptsOnDisk reg
          with ⟨reg2, es, r⟩
        have hes : es = [] := by
          have := update_related_events w wpfx w.scriptsOnDisk reg
          rw [hu] at this
          exact this
        subst hes
        cases r with
        | ok _ =>
          simp only [withEvents_eq, List.cons_append, List.nil_append,
            List.mem_cons]
          rintro (hx | hx | hx)
          · simp at hx
          · simp at hx
          · exact ih reg2 g hx
        | error e =>
          simp only [List.mem_cons]
          rintro (hx | hx | hx)
          · simp at hx
          · simp at hx
          · simp at hx

theorem terminate_script_no_pgrp (w : World) (s : Script) (reg : Reg)
    (g : Nat) : Event.sigkillPgrp g ∉ (terminate_script w s reg).2.1 := by
  simp only [terminate_script]
  cases hs : (regLookup reg (Script.stem s)).isSome with
  | false => simp
  | true =>
    rcases hx : extract_yaml_info w s with e | y
    · simp
    · simp only []
      rcases hp : w.pgrep ["-aif", strTake (stemOf y.exeFile) 15] with
        lines | _ | _
      · rcases hq : w.pgrep ["-aif", appname] with wcLines | _ | _
        · exact terminateKillLoop_no_pgrp w y.winePrefixDir
            (wcLines.map (·.pid)) (lines.map (·.pid)) _ g
        · simp
        · simp
      · simp
      · simp

theorem killAllLoop_killPids (w : World) :
    ∀ pids : List Nat, killPids (killAllLoop w pids) = pids := by
  intro pids
  induction pids with
  | nil => rfl
  | cons pid rest ih =>
    simp only [killAllLoop]
    cases hk : w.kill pid with
    | ok => simp only [killPids, List.filterMap_append] at *; simp [ih]
    | processLookup => simp only [killPids, List.filterMap_append] at *; simp [ih]
    | permissionError => simp only [killPids, List.filterMap_append] at *; simp [ih]

theorem collectFinished_ok (w : World)
    (hos : ∀ args, w.pgrep args ≠ .osError)
    (hperm : ∀ pg, w.killpg0 pg ≠ .permissionError) :
    ∀ l : List (String × RunRecord),
      ∃ es fs, collectFinished w l = (es, .ok fs) := by
  intro l
  induction l with
  | nil => exact ⟨[], [], rfl⟩
  | cons p rest ih =>
    obtain ⟨k, pi⟩ := p
    obtain ⟨es2, fs, hrest⟩ := ih
    have hck : ∃ es fin, checkRecord w pi = (es, .ok fin) := by
      simp only [checkRecord]
      cases hdead : (match pi.proc with
        | some h => w.poll h == PollResult.exited
        | none => false) with
      | true => exact ⟨[], true, by simp [hdead]⟩
      | false =>
        simp only [hdead, Bool.false_eq_true, if_false]
        rcases hpg : pi.pgid with _ | pg
        · rcases hp : w.pgrep ["-aif", strTake (Script.stem pi.script) 15] with
            lines | _ | _
          · exact ⟨[], _, rfl⟩
          · exact ⟨[], true, rfl⟩
          · exact absurd hp (hos _)
        · cases hkp : w.killpg0 pg with
          | ok => exact ⟨[Event.signal0Pgrp pg], false, by simp [hkp]⟩
          | processLookup => exact ⟨[Event.signal0Pgrp pg], true, by simp [hkp]⟩
          | permissionError => exact absurd hkp (hperm pg)
    obtain ⟨es1, fin, hck⟩ := hck
    refine ⟨es1 ++ es2, if fin then k :: fs else fs, ?_⟩
    simp only [collectFinished, hck, hrest]

/-! ## Claim theorems -/

/-- C1: for every descriptor identity at most one run record exists in the
registry at any time.  A toggle on a descriptor whose stem has a live run
record takes exactly the stop path (`terminate_script`) and never spawns a
process; a toggle on a descriptor without one takes the launch path; and a
registry satisfying the at-most-one invariant still satisfies it after any
single toggle and after any sequence of toggles. -/
theorem C1_at_most_one_run_record :
    (∀ (w : World) (s : Script) (reg : Reg),
        (regLookup reg (Script.stem s)).isSome = true →
        toggle_play_stop w s reg = terminate_script w s reg ∧
        ∀ q : Nat, Event.spawned q ∉ (toggle_play_stop w s reg).2.1) ∧
    (∀ (w : World) (s : Script) (reg : Reg),
        (regLookup reg (Script.stem s)).isSome = false →
        toggle_play_stop w s reg = launch_script w s reg) ∧
    (∀ (w : World) (s : Script) (reg : Reg), keysNodup reg →
        ∀ k, countKey (toggle_play_stop w s reg).1 k ≤ 1) ∧
    (∀ (w : World) (ss : List Script) (reg : Reg), keysNodup reg →
        ∀ k, countKey (toggleSeq w ss reg) k ≤ 1) := by
  refine ⟨?_, ?_, ?_, ?_⟩
  · intro w s reg hs
    refine ⟨by simp only [toggle_play_stop, hs], ?_⟩
    intro q
    simp only [toggle_play_stop, hs]
    exact terminate_script_no_spawned w s reg q
  · intro w s reg hs
    simp only [toggle_play_stop, hs]
  · intro w s reg h k
    exact keysNodup_countKey_le _ (keysNodup_toggle w s reg h) k
  · intro w ss reg h k
    exact keysNodup_countKey_le _ (keysNodup_toggleSeq w ss reg h) k

/-- C1 witness: concrete instantiation — with `GameApp` live, toggling stops;
with an empty registry, toggling launches; and three successive toggles keep
at most one `GameApp` record. -/
theorem C1_at_most_one_run_record_witness :
    ((regLookup reg1 (Script.stem s1)).isSome = true ∧
      toggle_play_stop w0 s1 reg1 = terminate_script w0 s1 reg1) ∧
    ((regLookup ([] : Reg) (Script.stem s1)).isSome = false ∧
      toggle_play_stop w0 s1 ([] : Reg) = launch_script w0 s1 ([] : Reg)) ∧
    (keysNodup reg1 ∧ countKey (toggleSeq w0 [s1, s1, s1] reg1) "GameApp" ≤ 1) :=
  ⟨⟨by decide, (C1_at_most_one_run_record.1 w0 s1 reg1 (by decide)).1⟩,
   ⟨by decide, C1_at_most_one_run_record.2.1 w0 s1 [] (by decide)⟩,
   ⟨by decide,
    C1_at_most_one_run_record.2.2.2 w0 [s1, s1, s1] reg1 (by decide) "GameApp"⟩⟩

/-- C2: when the descriptor's recorded executable path does not exist,
`launch_script` takes the distinct exe-not-found dialog path (the re-locate
remediation), spawns no process, and leaves the registry unchanged. -/
theorem C2_target_missing_no_spawn (w : World) (s : Script) (reg : Reg)
    (hscript : w.scriptFileExists s = true)
    (hmissing : w.fileExists (w.yamlOf s).exeFile = false) :
    launch_script w s reg =
      (reg, [Event.showExeNotFoundDialog (lastComponent (w.yamlOf s).exeFile)
        (w.yamlOf s).exeFile], .ok ()) ∧
    (launch_script w s reg).1 = reg ∧
    ∀ q : Nat, Event.spawned q ∉ (launch_script w s reg).2.1 := by
  have hx : extract_yaml_info w s = .ok (w.yamlOf s) := by
    simp [extract_yaml_info, hscript]
  have h1 : launch_script w s reg =
      (reg, [Event.showExeNotFoundDialog (lastComponent (w.yamlOf s).exeFile)
        (w.yamlOf s).exeFile], .ok ()) := by
    simp only [launch_script, hx, hmissing, Bool.false_eq_true, if_false]
  refine ⟨h1, by rw [h1], ?_⟩
  intro q
  rw [h1]
  simp

/-- C2 witness: with every file missing, launching `s1` from an empty
registry produces only the exe-not-found dialog. -/
theorem C2_target_missing_no_spawn_witness :
    (w2.scriptFileExists s1 = true ∧
      w2.fileExists (w2.yamlOf s1).exeFile = false) ∧
    launch_script w2 s1 ([] : Reg) =
      ([], [Event.showExeNotFoundDialog (lastComponent (w2.yamlOf s1).exeFile)
        (w2.yamlOf s1).exeFile], .ok ()) :=
  ⟨⟨by decide, by decide⟩,
   (C2_target_missing_no_spawn w2 s1 [] (by decide) (by decide)).1⟩

/-- C3 counterexample: the no-handle/no-pgid liveness decision is not a
function of the executable-name query the claim describes.  `wA` and `wB`
give the same answer to the executable-name query (`setup`, a live payload
line that does not mention the application's own name), yet the record for
`sC3` (script stem `My_Game`) is marked finished under `wA` and kept alive
under `wB` — the code consults the script-stem query instead. -/
theorem C3_counterexample :
    wA.pgrep ["-aif", strTake (stemOf (wA.yamlOf sC3).exeFile) 15] =
      wB.pgrep ["-aif", strTake (stemOf (wB.yamlOf sC3).exeFile) 15] ∧
    wA.pgrep ["-aif", strTake (stemOf (wA.yamlOf sC3).exeFile) 15] =
      .output [⟨100, "100 wine Z:\\pfx\\setup.exe"⟩] ∧
    strHas "100 wine Z:\\pfx\\setup.exe" appname = false ∧
    (checkRecord wA (externalRecord sC3)).2 = .ok true ∧
    (checkRecord wB (externalRecord sC3)).2 = .ok false :=
  ⟨rfl, rfl, rfl, rfl, rfl⟩

/-- C3 amended: the prober sleeps 3 time units per cycle; an owned handle
polling as exited is marked finished; else a known process group is signalled
with the no-op signal and process-not-found marks it finished; else the OS
process table is queried with the first 15 characters of the record's
*script stem* (the display name the descriptor file is named by, which may
differ from the executable's name) — no match (empty output or nonzero
`pgrep` exit) marks it finished, as does any output line containing the
application's own name; finished records are only scheduled for retirement
via deferred idle events, and the retirement itself (`process_ended`, run on
the owner thread) pops the record. -/
theorem C3_liveness_prober_amended :
    probeInterval = 3 ∧
    (∀ (w : World) (pi : RunRecord) (h : Nat),
        pi.proc = some h → w.poll h = .exited →
        checkRecord w pi = ([], .ok true)) ∧
    (∀ (w : World) (pi : RunRecord) (pg : Nat),
        (∀ h, pi.proc = some h → w.poll h = .running) →
        pi.pgid = some pg →
        (checkRecord w pi).1 = [Event.signal0Pgrp pg] ∧
        (w.killpg0 pg = .processLookup → (checkRecord w pi).2 = .ok true)) ∧
    (∀ (w : World) (pi : RunRecord),
        (∀ h, pi.proc = some h → w.poll h = .running) → pi.pgid = none →
        ((w.pgrep ["-aif", strTake (Script.stem pi.script) 15] = .output [] →
            (checkRecord w pi).2 = .ok true) ∧
         (w.pgrep ["-aif", strTake (Script.stem pi.script) 15] =
            .calledProcessError → (checkRecord w pi).2 = .ok true) ∧
         (∀ (lines : List PgrepLine) (l : PgrepLine),
            w.pgrep ["-aif", strTake (Script.stem pi.script) 15] =
              .output lines → l ∈ lines →
            strHas l.text appname = true →
            (checkRecord w pi).2 = .ok true))) ∧
    (∀ (w : World) (reg : Reg) (es : List Event) (fs : List String),
        monitor_processes_cycle w reg = (es, .ok fs) →
        ∀ k ∈ fs, Event.idleProcessEnded k ∈ es) ∧
    (∀ (w : World) (stem : String) (reg : Reg) (pi : RunRecord),
        regLookup reg stem = some pi →
        w.scriptFileExists pi.script = true →
        w.scriptsOnDisk = [] →
        process_ended w stem reg =
          (regErase reg stem, [Event.uiReset], .ok ())) := by
  refine ⟨rfl, ?_, ?_, ?_, ?_, ?_⟩
  · intro w pi h hp hpoll
    simp [checkRecord, hp, hpoll]
  · intro w pi pg hrun hpg
    have hdead : (match pi.proc with
        | some h => w.poll h == PollResult.exited
        | none => false) = false := by
      rcases hproc : pi.proc with _ | h
      · rfl
      · simp [hrun h hproc]
    constructor
    · simp only [checkRecord, hdead, Bool.false_eq_true, if_false, hpg]
      cases hkp : w.killpg0 pg <;> simp [hkp]
    · intro hkp
      simp [checkRecord, hdead, hpg, hkp]
  · intro w pi hrun hpg
    have hdead : (match pi.proc with
        | some h => w.poll h == PollResult.exited
        | none => false) = false := by
      rcases hproc : pi.proc with _ | h
      · rfl
      · simp [hrun h hproc]
    refine ⟨?_, ?_, ?_⟩
    · intro hp
      simp [checkRecord, hdead, hpg, hp]
    · intro hp
      simp [checkRecord, hdead, hpg, hp]
    · intro lines l hp hl hstr
      have hany : lines.any (fun l => strHas l.text appname) = true :=
        List.any_eq_true.2 ⟨l, hl, hstr⟩
      simp [checkRecord, hdead, hpg, hp, hany]
  · intro w reg es fs hcyc k hk
    unfold monitor_processes_cycle at hcyc
    rcases hc : collectFinished w reg with ⟨es0, r⟩
    rw [hc] at hcyc
    cases r with
    | error e => simp at hcyc
    | ok fs0 =>
      simp only [Prod.mk.injEq] at hcyc
      obtain ⟨hes, hfs⟩ := hcyc
      have hfs0 : fs0 = fs := by
        simpa using hfs
      subst hfs0
      rw [← hes]
      exact List.mem_append_right es0 (List.mem_map_of_mem Event.idleProcessEnded hk)
  · intro w stem reg pi hlk hscript hdisk
    simp only [process_ended, hlk, extract_yaml_info, hscript, if_true, hdisk,
      update_related_scripts_buttons, withEvents_eq, List.append_nil]

/-- C3 witness: concrete instantiations of every conjunct of the amended
statement. -/
theorem C3_liveness_prober_amended_witness :
    probeInterval = 3 ∧
    checkRecord wPoll rec1 = ([], .ok true) ∧
    ((checkRecord wPg rec1).1 = [Event.signal0Pgrp 42] ∧
      (checkRecord wPg rec1).2 = .ok true) ∧
    ((checkRecord wOut0 (externalRecord s1)).2 = .ok true ∧
      (checkRecord wOwn (externalRecord s1)).2 = .ok true) ∧
    (monitor_processes_cycle wPoll reg1 =
        ([Event.idleProcessEnded "GameApp"], .ok ["GameApp"]) ∧
      Event.idleProcessEnded "GameApp" ∈ [Event.idleProcessEnded "GameApp"]) ∧
    process_ended w0 "GameApp" reg1 =
      (regErase reg1 "GameApp", [Event.uiReset], .ok ()) := by
  refine ⟨C3_liveness_prober_amended.1, ?_, ?_, ⟨?_, ?_⟩, ⟨rfl, ?_⟩, ?_⟩
  · exact C3_liveness_prober_amended.2.1 wPoll rec1 100 rfl rfl
  · have h := C3_liveness_prober_amended.2.2.1 wPg rec1 42
      (fun h _ => rfl) rfl
    exact ⟨h.1, h.2 rfl⟩
  · exact (C3_liveness_prober_amended.2.2.2.1 wOut0 (externalRecord s1)
      (fun h hh => by simp [externalRecord] at hh) rfl).1 rfl
  · exact (C3_liveness_prober_amended.2.2.2.1 wOwn (externalRecord s1)
      (fun h hh => by simp [externalRecord] at hh) rfl).2.2
      [⟨999, "999 python WineCharm.py /pfx/GameApp.exe"⟩]
      ⟨999, "999 python WineCharm.py /pfx/GameApp.exe"⟩
      rfl (by simp) (by decide)
  · exact C3_liveness_prober_amended.2.2.2.2.1 wPoll reg1
      [Event.idleProcessEnded "GameApp"] ["GameApp"] rfl "GameApp" (by simp)
  · exact C3_liveness_prober_amended.2.2.2.2.2 w0 "GameApp" reg1 rec1
      rfl rfl rfl

/-- C4 counterexample: a `pgrep` failure at the OS level (command not found
or permission denied launching it) is not caught — only `CalledProcessError`
is — so the probe cycle raises instead of marking the externally probed
record finished. -/
theorem C4_counterexample :
    monitor_processes_cycle wOsErr regExt = ([], .error .osError) := rfl

/-- C4 amended: a nonzero-exit `pgrep` failure (`CalledProcessError`, which
is also how "no match" is reported) marks the record finished, and the probe
cycle returns normally whenever no OS query fails at the OS level and no
group signal is denied; an OS-level query error, however, escapes the
cycle. -/
theorem C4_probe_error_amended :
    (∀ (w : World) (pi : RunRecord),
        (∀ h, pi.proc = some h → w.poll h = .running) → pi.pgid = none →
        w.pgrep ["-aif", strTake (Script.stem pi.script) 15] =
          .calledProcessError →
        (checkRecord w pi).2 = .ok true) ∧
    (∀ (w : World) (reg : Reg),
        (∀ args, w.pgrep args ≠ .osError) →
        (∀ pg, w.killpg0 pg ≠ .permissionError) →
        ∃ es fs, monitor_processes_cycle w reg = (es, .ok fs)) := by
  constructor
  · intro w pi hrun hpg hp
    have hdead : (match pi.proc with
        | some h => w.poll h == PollResult.exited
        | none => false) = false := by
      rcases hproc : pi.proc with _ | h
      · rfl
      · simp [hrun h hproc]
    simp [checkRecord, hdead, hpg, hp]
  · intro w reg hos hperm
    obtain ⟨es, fs, hc⟩ := collectFinished_ok w hos hperm reg
    exact ⟨es ++ fs.map Event.idleProcessEnded, fs,
      by simp only [monitor_processes_cycle, hc]⟩

/-- C4 witness: with `pgrep` reporting nonzero exit the external record is
finished, and on the benign world the cycle returns normally. -/
theorem C4_probe_error_amended_witness :
    (checkRecord w0 (externalRecord s1)).2 = .ok true ∧
    ∃ es fs, monitor_processes_cycle w0 reg1 = (es, .ok fs) :=
  ⟨C4_probe_error_amended.1 w0 (externalRecord s1)
      (fun h hh => by simp [externalRecord] at hh) rfl rfl,
   C4_probe_error_amended.2 w0 reg1
      (fun args h => by simp [w0] at h)
      (fun pg h => by simp [w0] at h)⟩

/-- C5 counterexample: terminating the live `GameApp` record (tracked group
42) sends SIGKILL only to the individual pid 100 found by the name query —
no process-group signal is sent at all, and a descendant pid 200 in group 42
whose command line does not match the name prefix receives nothing. -/
theorem C5_counterexample :
    (terminate_script w5 s1 reg1).2.1 =
      [Event.sigkillPid 100, Event.uiReset] ∧
    Event.sigkillPgrp 42 ∉ (terminate_script w5 s1 reg1).2.1 ∧
    Event.sigkillPid 200 ∉ (terminate_script w5 s1 reg1).2.1 := by
  refine ⟨rfl, ?_, ?_⟩ <;> decide

/-- C5 amended: terminating a descriptor with a live run record SIGKILLs,
one pid at a time, exactly the processes whose `pgrep -aif` lines match the
first 15 characters of the executable stem, minus the application's own
pids; no process-group signal is ever sent, so descendants not matching the
name prefix are not signalled. -/
theorem C5_terminate_kills_by_name_amended (w : World) (s : Script)
    (reg : Reg) (lines wcLines : List PgrepLine)
    (hlive : (regLookup reg (Script.stem s)).isSome = true)
    (hscript : w.scriptFileExists s = true)
    (hp : w.pgrep ["-aif", strTake (stemOf (w.yamlOf s).exeFile) 15] =
      .output lines)
    (hq : w.pgrep ["-aif", appname] = .output wcLines)
    (hex : ∀ sc ∈ w.scriptsOnDisk, w.scriptFileExists sc = true)
    (hos : ∀ args, w.pgrep args ≠ .osError)
    (hperm : ∀ p, w.kill p ≠ .permissionError) :
    killPids (terminate_script w s reg).2.1 =
      (lines.map (·.pid)).filter
        (fun p => !((wcLines.map (·.pid)).contains p)) ∧
    ∀ g : Nat, Event.sigkillPgrp g ∉ (terminate_script w s reg).2.1 := by
  constructor
  · simp only [terminate_script, hlive, extract_yaml_info, hscript, if_true,
      hp, hq]
    exact terminateKillLoop_killPids w (w.yamlOf s).winePrefixDir
      (wcLines.map (·.pid)) hex hos hperm (lines.map (·.pid)) _
  · intro g
    exact terminate_script_no_pgrp w s reg g

/-- C5 witness: with one payload pid (100) and WineCharm itself (999)
reported, terminating kills exactly pid 100 individually. -/
theorem C5_terminate_kills_by_name_amended_witness :
    killPids (terminate_script w5 s1 reg1).2.1 = [100] :=
  (C5_terminate_kills_by_name_amended w5 s1 reg1
      [⟨100, "100 wine GameApp.exe"⟩] [⟨999, "999 python winecharm.py"⟩]
      (by decide) (by decide) rfl rfl
      (fun sc hsc => by simp [w5, w0] at hsc)
      (fun args h => by unfold w5 at h; dsimp at h; split at h <;> simp_all)
      (fun p h => by simp [w5, w0] at h)).1

/-- C6 counterexample: `terminate_script` catches only `ProcessLookupError`
from the kill; a permission-denied kill escapes, so terminate can raise. -/
theorem C6_counterexample :
    (terminate_script w6 s1 reg1).2.2 = .error .permissionError := rfl

/-- Helper for the idempotence argument: under benign OS behaviour the first
terminate leaves no record under the descriptor's stem. -/
theorem terminate_script_self_gone (w : World) (s : Script) (reg : Reg)
    (hscript : w.scriptFileExists s = true)
    (hne : ∀ sc ∈ w.scriptsOnDisk, Script.stem sc ≠ Script.stem s) :
    (regLookup (terminate_script w s reg).1 (Script.stem s)).isSome = false := by
  cases hs : (regLookup reg (Script.stem s)).isSome with
  | false => simp only [terminate_script, hs]
  | true =>
    have hgone : ∀ reg2 : Reg,
        regLookup reg2 (Script.stem s) =
          regLookup (regErase reg (Script.stem s)) (Script.stem s) →
        (regLookup reg2 (Script.stem s)).isSome = false := by
      intro reg2 h2
      rw [h2, regLookup_regErase_self]
      rfl
    simp only [terminate_script, hs, extract_yaml_info, hscript, if_true]
    rcases hp : w.pgrep ["-aif", strTake (stemOf (w.yamlOf s).exeFile) 15] with
      lines | _ | _
    · rcases hq : w.pgrep ["-aif", appname] with wcLines | _ | _
      · exact hgone _ (terminateKillLoop_lookup_other w
          (w.yamlOf s).winePrefixDir (wcLines.map (·.pid)) (Script.stem s) hne
          (lines.map (·.pid)) (regErase reg (Script.stem s)))
      · exact hgone _ rfl
      · exact hgone _ rfl
    · exact hgone _ rfl
    · exact hgone _ rfl

/-- C6 amended: terminate on a descriptor without a run record is a reported
no-op that never raises; a `ProcessLookupError` from any kill is swallowed
(terminate returns normally whenever no kill is permission-denied and the OS
queries do not fail at the OS level); and — provided the per-kill rescan does
not re-register the descriptor — the second of two successive terminate
calls always finds no record and is a reported no-op.  A permission-denied
kill, by contrast, escapes as an exception (see the counterexample). -/
theorem C6_terminate_idempotent_amended :
    (∀ (w : World) (s : Script) (reg : Reg),
        (regLookup reg (Script.stem s)).isSome = false →
        terminate_script w s reg =
          (reg, [Event.printed ("No running process found for " ++ s)],
           .ok ())) ∧
    (∀ (w : World) (s : Script) (reg : Reg),
        w.scriptFileExists s = true →
        (∀ sc ∈ w.scriptsOnDisk, w.scriptFileExists sc = true) →
        (∀ args, w.pgrep args ≠ .osError) →
        (∀ p, w.kill p ≠ .permissionError) →
        (terminate_script w s reg).2.2 = .ok ()) ∧
    (∀ (w : World) (s : Script) (reg : Reg),
        w.scriptFileExists s = true →
        (∀ sc ∈ w.scriptsOnDisk, Script.stem sc ≠ Script.stem s) →
        terminate_script w s (terminate_script w s reg).1 =
          ((terminate_script w s reg).1,
           [Event.printed ("No running process found for " ++ s)],
           .ok ())) := by
  refine ⟨?_, ?_, ?_⟩
  · intro w s reg hs
    simp only [terminate_script, hs]
  · intro w s reg hscript hex hos hperm
    cases hs : (regLookup reg (Script.stem s)).isSome with
    | false => simp only [terminate_script, hs]
    | true =>
      simp only [terminate_script, hs, extract_yaml_info, hscript, if_true]
      rcases hp : w.pgrep ["-aif", strTake (stemOf (w.yamlOf s).exeFile) 15]
        with lines | _ | _
      · rcases hq : w.pgrep ["-aif", appname] with wcLines | _ | _
        · exact terminateKillLoop_result_ok w (w.yamlOf s).winePrefixDir
            (wcLines.map (·.pid)) hex hos hperm (lines.map (·.pid)) _
        · rfl
        · exact absurd hq (hos _)
      · rfl
      · exact absurd hp (hos _)
  · intro w s reg hscript hne
    have hg := terminate_script_self_gone w s reg hscript hne
    have hz : (regLookup (terminate_script w s reg).1
        (Script.stem s)).isSome = false := hg
    generalize hR : (terminate_script w s reg).1 = R at hz ⊢
    simp only [terminate_script, hz]

/-- C6 witness: absent record is a no-op; on `w5` the first terminate kills
and returns normally; a repeated terminate is a reported no-op. -/
theorem C6_terminate_idempotent_amended_witness :
    terminate_script w5 s1 ([] : Reg) =
      ([], [Event.printed ("No running process found for " ++ s1)], .ok ()) ∧
    (terminate_script w5 s1 reg1).2.2 = .ok () ∧
    terminate_script w5 s1 (terminate_script w5 s1 reg1).1 =
      ((terminate_script w5 s1 reg1).1,
       [Event.printed ("No running process found for " ++ s1)], .ok ()) :=
  ⟨C6_terminate_idempotent_amended.1 w5 s1 [] (by decide),
   C6_terminate_idempotent_amended.2.1 w5 s1 reg1 (by decide)
     (fun sc hsc => by simp [w5, w0] at hsc)
     (fun args h => by unfold w5 at h; dsimp at h; split at h <;> simp_all)
     (fun p h => by simp [w5, w0] at h),
   C6_terminate_idempotent_amended.2.2 w5 s1 reg1 (by decide)
     (fun sc hsc => by simp [w5, w0] at hsc)⟩

/-- C7: the global kill-all enumerates the `.exe`-matching processes,
drops PID 1 and the supervisor's own pids, kills the rest in
reverse-discovery order, and completes for every remaining pid no matter how
individual kills fail (each failure is caught and printed). -/
theorem C7_kill_all_excludes_and_completes (w : World) (reg : Reg)
    (wcLines lines : List PgrepLine)
    (hq : w.pgrep ["-aif", appname] = .output wcLines)
    (hp : w.pgrep ["-aif", "\\.exe"] = .output lines) :
    on_kill_all_clicked w reg =
      ([], killAllLoop w (((lines.map (·.pid)).filter
        (fun p => !(p == 1) && !((wcLines.map (·.pid)).contains p))).reverse),
       .ok ()) ∧
    killPids (on_kill_all_clicked w reg).2.1 =
      ((lines.map (·.pid)).filter
        (fun p => !(p == 1) && !((wcLines.map (·.pid)).contains p))).reverse := by
  have h1 : on_kill_all_clicked w reg =
      ([], killAllLoop w (((lines.map (·.pid)).filter
        (fun p => !(p == 1) && !((wcLines.map (·.pid)).contains p))).reverse),
       .ok ()) := by
    simp only [on_kill_all_clicked, hq, hp]
  refine ⟨h1, ?_⟩
  rw [h1]
  exact killAllLoop_killPids w _

/-- C7 witness: with processes 1, 999 (WineCharm), 100, 101 listed, the kill
set is exactly [101, 100] — reverse order, own pids and PID 1 excluded. -/
theorem C7_kill_all_excludes_and_completes_witness :
    (w7.pgrep ["-aif", appname] = .output [⟨999, "999 python winecharm.py"⟩] ∧
     w7.pgrep ["-aif", "\\.exe"] = .output [⟨1, "1 init"⟩,
       ⟨999, "999 python winecharm.py"⟩, ⟨100, "100 wine GameApp.exe"⟩,
       ⟨101, "101 GameApp.exe worker"⟩]) ∧
    killPids (on_kill_all_clicked w7 reg1).2.1 = [101, 100] := by
  refine ⟨⟨rfl, rfl⟩, ?_⟩
  have h := (C7_kill_all_excludes_and_completes w7 reg1
    [⟨999, "999 python winecharm.py"⟩]
    [⟨1, "1 init"⟩, ⟨999, "999 python winecharm.py"⟩,
     ⟨100, "100 wine GameApp.exe"⟩, ⟨101, "101 GameApp.exe worker"⟩]
    rfl rfl).2
  rw [h]
  rfl

/-- C8: a secondary invocation with a file argument that finds the
rendezvous socket present and connectable acts purely as a client: it sends
the single message `cwd||file` and returns without binding the socket or
presenting any UI. -/
theorem C8_secondary_invocation_pure_client (w : World) (f : String)
    (hs : w.socketExists = true) (hc : w.connectOk = true) :
    mainEntry w (some f) =
      ([Event.sendMessage (w.getcwd ++ "||" ++ f)], .ok ()) ∧
    Event.bindSocket ∉ (mainEntry w (some f)).1 ∧
    Event.presentUI ∉ (mainEntry w (some f)).1 := by
  have h1 : mainEntry w (some f) =
      ([Event.sendMessage (w.getcwd ++ "||" ++ f)], .ok ()) := by
    simp only [mainEntry, hs, hc, if_true]
  refine ⟨h1, ?_, ?_⟩ <;> rw [h1] <;> simp

/-- C8 witness: with the socket bound and reachable, invoking with
`games/setup.exe` sends exactly `/home/u||games/setup.exe` and neither binds
nor presents UI. -/
theorem C8_secondary_invocation_pure_client_witness :
    (w0.socketExists = true ∧ w0.connectOk = true) ∧
    mainEntry w0 (some "games/setup.exe") =
      ([Event.sendMessage "/home/u||games/setup.exe"], .ok ()) ∧
    Event.bindSocket ∉ (mainEntry w0 (some "games/setup.exe")).1 :=
  ⟨⟨rfl, rfl⟩,
   (C8_secondary_invocation_pure_client w0 "games/setup.exe" rfl rfl).1,
   (C8_secondary_invocation_pure_client w0 "games/setup.exe" rfl rfl).2.1⟩

/-- C9 counterexample: a message without the `||` separator raises
`ValueError` out of the accept loop — the loop stops and the following
well-formed, fully resolvable message (which on its own would be forwarded)
is never served. -/
theorem C9_counterexample :
    serveLoop w9 ["no separator here", "/home/u||games/setup.exe"] =
      ([], .error .valueError) ∧
    handle_message w9 "/home/u||games/setup.exe" =
      ([Event.idleProcessCli "/home/u/games/setup.exe"], .ok ()) :=
  ⟨rfl, rfl⟩

/-- C9 amended: after any normally handled message the accept loop keeps
serving; a message with the separator whose resolution directory is missing,
or whose (nonempty) glob pattern matches nothing, is dropped with a
diagnostic and never raises; every resolved path that exists is forwarded
exactly once via the deferred idle-add events; but a message that does not
split into exactly two fields on `||` raises `ValueError` from the
unpacking, and a two-field message whose requested path has an empty final
component (empty path field or trailing `/`) reaches `Path.glob` with an
empty pattern, which raises `ValueError` — either way the accept loop
terminates. -/
theorem C9_gateway_amended :
    (∀ (w : World) (m : String) (rest : List String) (es : List Event),
        handle_message w m = (es, .ok ()) →
        serveLoop w (m :: rest) =
          (es ++ (serveLoop w rest).1, (serveLoop w rest).2)) ∧
    (∀ (w : World) (m : String) (cwdCs fpCs : List Char),
        m.isEmpty = false → splitBars m.data = [cwdCs, fpCs] →
        w.dirExists (joinPath (String.mk cwdCs)
          (String.mk (joinWith '/' ((splitOnChar '/' fpCs).dropLast)))) =
            false →
        handle_message w m =
          ([Event.printed ("Directory does not exist: " ++
            joinPath (String.mk cwdCs)
              (String.mk (joinWith '/' ((splitOnChar '/' fpCs).dropLast))))],
           .ok ())) ∧
    (∀ (w : World) (m : String) (cwdCs fpCs : List Char),
        m.isEmpty = false → splitBars m.data = [cwdCs, fpCs] →
        w.dirExists (joinPath (String.mk cwdCs)
          (String.mk (joinWith '/' ((splitOnChar '/' fpCs).dropLast)))) =
            true →
        (String.mk ((splitOnChar '/' fpCs).getLastD [])).isEmpty = false →
        w.glob (joinPath (String.mk cwdCs)
            (String.mk (joinWith '/' ((splitOnChar '/' fpCs).dropLast))))
          (String.mk ((splitOnChar '/' fpCs).getLastD [])) = [] →
        handle_message w m =
          ([Event.printed ("No files matched the pattern: " ++
            String.mk fpCs)], .ok ())) ∧
    (∀ (w : World) (m : String) (cwdCs fpCs : List Char)
        (files : List String),
        m.isEmpty = false → splitBars m.data = [cwdCs, fpCs] →
        w.dirExists (joinPath (String.mk cwdCs)
          (String.mk (joinWith '/' ((splitOnChar '/' fpCs).dropLast)))) =
            true →
        (String.mk ((splitOnChar '/' fpCs).getLastD [])).isEmpty = false →
        w.glob (joinPath (String.mk cwdCs)
            (String.mk (joinWith '/' ((splitOnChar '/' fpCs).dropLast))))
          (String.mk ((splitOnChar '/' fpCs).getLastD [])) = files →
        files ≠ [] →
        (∀ p ∈ files, w.fileExists p = true) →
        handle_message w m = (files.map Event.idleProcessCli, .ok ()) ∧
        (files.Nodup → ∀ p ∈ files,
          (files.map Event.idleProcessCli).count (Event.idleProcessCli p)
            = 1)) ∧
    (∀ (w : World) (m : String) (rest : List String) (cwdCs fpCs : List Char),
        m.isEmpty = false → splitBars m.data = [cwdCs, fpCs] →
        w.dirExists (joinPath (String.mk cwdCs)
          (String.mk (joinWith '/' ((splitOnChar '/' fpCs).dropLast)))) =
            true →
        (String.mk ((splitOnChar '/' fpCs).getLastD [])).isEmpty = true →
        serveLoop w (m :: rest) = ([], .error .valueError)) ∧
    (∀ (w : World) (m : String) (rest : List String),
        m.isEmpty = false → (splitBars m.data).length ≠ 2 →
        serveLoop w (m :: rest) = ([], .error .valueError)) := by
  refine ⟨?_, ?_, ?_, ?_, ?_, ?_⟩
  · intro w m rest es hm
    rcases hr : serveLoop w rest with ⟨es2, r⟩
    simp only [serveLoop, hm, hr]
  · intro w m cwdCs fpCs hne hsb hdir
    simp [handle_message, hne, hsb, hdir]
  · intro w m cwdCs fpCs hne hsb hdir hpat hglob
    simp only [handle_message, hne, Bool.false_eq_true, if_false, hsb, hdir,
      Bool.not_true, hpat, hglob, List.isEmpty_nil, if_true]
  · intro w m cwdCs fpCs files hne hsb hdir hpat hglob hnonempty hex
    have hie : files.isEmpty = false := by
      cases files with
      | nil => exact absurd rfl hnonempty
      | cons a l => rfl
    constructor
    · simp only [handle_message, hne, Bool.false_eq_true, if_false, hsb,
        hdir, if_true, hpat, hglob, hie]
      exact congrArg (fun l => (l, Except.ok ()))
        (List.map_congr_left (fun p hp => by simp [hex p hp]))
    · intro hnd p hp
      rw [List.count_map_of_injective files Event.idleProcessCli
        (fun a b hab => by injection hab) p]
      exact List.count_eq_one_of_mem hnd hp
  · intro w m rest cwdCs fpCs hne hsb hdir hpat
    have hm : handle_message w m = ([], .error .valueError) := by
      simp only [handle_message, hne, Bool.false_eq_true, if_false, hsb,
        hdir, Bool.not_true, hpat, if_true]
    simp only [serveLoop, hm]
  · intro w m rest hne hlen
    have hm : handle_message w m = ([], .error .valueError) := by
      simp only [handle_message, hne, Bool.false_eq_true, if_false]
      rcases hsb : splitBars m.data with _ | ⟨a, _ | ⟨b, _ | ⟨c, tail⟩⟩⟩
      · rfl
      · rfl
      · exact absurd (by rw [hsb]; rfl) hlen
      · rfl
    simp only [serveLoop, hm]

/-- C9 witness: instantiation of each amended conjunct on concrete
messages, including the empty-final-component message `"/home/u||"` that
reaches the glob with an empty pattern. -/
theorem C9_gateway_amended_witness :
    serveLoop w9 ["/home/u||games/setup.exe"] =
      ([Event.idleProcessCli "/home/u/games/setup.exe"] ++
        (serveLoop w9 ([] : List String)).1,
       (serveLoop w9 ([] : List String)).2) ∧
    handle_message wNoDir "/home/u||games/setup.exe" =
      ([Event.printed "Directory does not exist: /home/u/games"], .ok ()) ∧
    handle_message w0 "/home/u||games/setup.exe" =
      ([Event.printed "No files matched the pattern: games/setup.exe"],
       .ok ()) ∧
    handle_message w9 "/home/u||games/setup.exe" =
      ([Event.idleProcessCli "/home/u/games/setup.exe"], .ok ()) ∧
    ([Event.idleProcessCli "/home/u/games/setup.exe"]).count
      (Event.idleProcessCli "/home/u/games/setup.exe") = 1 ∧
    serveLoop w0 ["/home/u||"] = ([], .error .valueError) ∧
    serveLoop w9 ["nosep"] = ([], .error .valueError) := by
  have hd : handle_message w9 "/home/u||games/setup.exe" =
      ([Event.idleProcessCli "/home/u/games/setup.exe"], .ok ()) := by
    have h := (C9_gateway_amended.2.2.2.1 w9 "/home/u||games/setup.exe"
      "/home/u".data "games/setup.exe".data ["/home/u/games/setup.exe"]
      rfl (by decide) rfl (by decide) rfl (by decide) (fun p _ => rfl)).1
    simpa using h
  refine ⟨?_, ?_, ?_, hd, ?_, ?_, ?_⟩
  · exact C9_gateway_amended.1 w9 "/home/u||games/setup.exe" []
      [Event.idleProcessCli "/home/u/games/setup.exe"] hd
  · have h := C9_gateway_amended.2.1 wNoDir "/home/u||games/setup.exe"
      "/home/u".data "games/setup.exe".data rfl (by decide) rfl
    simpa using h
  · have h := C9_gateway_amended.2.2.1 w0 "/home/u||games/setup.exe"
      "/home/u".data "games/setup.exe".data rfl (by decide) rfl (by decide)
      rfl
    simpa using h
  · have h := (C9_gateway_amended.2.2.2.1 w9 "/home/u||games/setup.exe"
      "/home/u".data "games/setup.exe".data ["/home/u/games/setup.exe"]
      rfl (by decide) rfl (by decide) rfl (by decide) (fun p _ => rfl)).2
      (by decide) "/home/u/games/setup.exe" (by decide)
    simp at h
    simp [h]
  · exact C9_gateway_amended.2.2.2.2.1 w0 "/home/u||" []
      "/home/u".data "".data rfl (by decide) rfl (by decide)
  · exact C9_gateway_amended.2.2.2.2.2 w9 "nosep" [] rfl (by decide)

/-- C10: whenever the global kill-all returns normally the registry is
empty afterwards; and it does return normally — with the registry cleared —
both when either process enumeration reports nonzero exit and when
individual kills fail arbitrarily. -/
theorem C10_registry_cleared_after_kill_all :
    (∀ (w : World) (reg : Reg),
        (on_kill_all_clicked w reg).2.2 = .ok () →
        (on_kill_all_clicked w reg).1 = []) ∧
    (∀ (w : World) (reg : Reg),
        w.pgrep ["-aif", appname] = .calledProcessError →
        on_kill_all_clicked w reg =
          ([], [Event.printed "Error retrieving process list"], .ok ())) ∧
    (∀ (w : World) (reg : Reg) (wcLines : List PgrepLine),
        w.pgrep ["-aif", appname] = .output wcLines →
        w.pgrep ["-aif", "\\.exe"] = .calledProcessError →
        on_kill_all_clicked w reg =
          ([], [Event.printed "No matching Wine exe processes found."],
           .ok ())) ∧
    (∀ (w : World) (reg : Reg) (wcLines lines : List PgrepLine),
        w.pgrep ["-aif", appname] = .output wcLines →
        w.pgrep ["-aif", "\\.exe"] = .output lines →
        (on_kill_all_clicked w reg).2.2 = .ok () ∧
        (on_kill_all_clicked w reg).1 = []) := by
  refine ⟨?_, ?_, ?_, ?_⟩
  · intro w reg hok
    rcases hq : w.pgrep ["-aif", appname] with wcLines | _ | _
    · rcases hp : w.pgrep ["-aif", "\\.exe"] with lines | _ | _
      · simp only [on_kill_all_clicked, hq, hp]
      · simp only [on_kill_all_clicked, hq, hp]
      · simp only [on_kill_all_clicked, hq, hp] at hok
        exact absurd hok (by simp)
    · simp only [on_kill_all_clicked, hq]
    · simp only [on_kill_all_clicked, hq] at hok
      exact absurd hok (by simp)
  · intro w reg hq
    simp only [on_kill_all_clicked, hq]
  · intro w reg wcLines hq hp
    simp only [on_kill_all_clicked, hq, hp]
  · intro w reg wcLines lines hq hp
    constructor <;> simp only [on_kill_all_clicked, hq, hp]

/-- C10 witness: on the process-listing world `w7` the kill-all returns
normally and leaves an empty registry even though records were present, and
on `w0` (enumeration reporting nonzero exit) the registry is likewise
cleared. -/
theorem C10_registry_cleared_after_kill_all_witness :
    ((on_kill_all_clicked w7 reg1).2.2 = .ok () ∧
      (on_kill_all_clicked w7 reg1).1 = []) ∧
    on_kill_all_clicked w0 reg1 =
      ([], [Event.printed "Error retrieving process list"], .ok ()) :=
  ⟨⟨(C10_registry_cleared_after_kill_all.2.2.2 w7 reg1
      [⟨999, "999 python winecharm.py"⟩]
      [⟨1, "1 init"⟩, ⟨999, "999 python winecharm.py"⟩,
       ⟨100, "100 wine GameApp.exe"⟩, ⟨101, "101 GameApp.exe worker"⟩]
      rfl rfl).1,
    C10_registry_cleared_after_kill_all.1 w7 reg1 rfl⟩,
   C10_registry_cleared_after_kill_all.2.1 w0 reg1 rfl⟩

end WineCharm
